import Mathlib

/-!
Verification of the PNG/ZIP polyglot tool against its specification.

This file is a shallow embedding of the Rust sources (src/utils/mod.rs,
src/png/parser.rs, src/png/mod.rs, src/zip/offsets.rs, src/zip/mod.rs,
src/extract/mod.rs, src/polyglot/mod.rs) into Lean 4, followed by theorems
settling the specification's testable properties.

Conventions of the embedding:
- A byte buffer `Vec<u8>` / `&[u8]` is a `List Nat`; well-formed buffers
  satisfy `∀ b ∈ l, b < 256`.
- Machine integers are `Nat` with explicit `% 2^32` where Rust arithmetic
  wraps (`u32` addition compiles to wrapping addition in release builds,
  and `as u32` casts truncate).
- Fallible Rust functions returning `PolyglotResult<T>` become
  `Except PolyglotError T`.  A Rust panic reachable from the modelled code
  (an out-of-bounds slice index, a failed `unwrap`, a usize underflow) is
  modelled as the distinguished error `PolyglotError.sliceOutOfBounds`:
  it marks a crash, not a typed error return.
- File I/O is abstracted away: functions that read a path receive the
  file's bytes; functions that write a path return the bytes written.
- Rust `while` loops over a byte cursor become structural recursion on an
  explicit fuel argument.  Each loop iteration advances the cursor by at
  least 12 (PNG chunk loop) or 46 (ZIP directory loop) bytes, so fuel
  `data.length` is always sufficient and the fuel-exhausted branch is
  unreachable on the arguments the embedded code ever passes.
-/

/-! ## Bytes and integer readers (src/utils/mod.rs) -/

/-- Byte at index `i` of a buffer (0 when out of range; every in-range use
below is bounds-checked exactly where the Rust code is). -/
def byteAt (data : List Nat) (i : Nat) : Nat := data.getD i 0

/-- Value of the big-endian u32 at `offset` (callers check bounds). -/
def read_u32_be_v (data : List Nat) (offset : Nat) : Nat :=
  byteAt data offset * 16777216 + byteAt data (offset + 1) * 65536 +
    byteAt data (offset + 2) * 256 + byteAt data (offset + 3)

/-- Value of the little-endian u32 at `offset` (callers check bounds). -/
def read_u32_le_v (data : List Nat) (offset : Nat) : Nat :=
  byteAt data offset + byteAt data (offset + 1) * 256 +
    byteAt data (offset + 2) * 65536 + byteAt data (offset + 3) * 16777216

/-- Value of the little-endian u16 at `offset` (callers check bounds). -/
def read_u16_le_v (data : List Nat) (offset : Nat) : Nat :=
  byteAt data offset + byteAt data (offset + 1) * 256

/-- Big-endian bytes of a u32 value (`u32::to_be_bytes`). -/
def u32be (n : Nat) : List Nat :=
  [n / 16777216 % 256, n / 65536 % 256, n / 256 % 256, n % 256]

/-- `write_u32_le` from src/utils/mod.rs: store `value` little-endian at
`offset`.  Callers check `offset + 4 ≤ data.length` before calling, exactly
where the Rust code does; `List.set` keeps the length unchanged like the
Rust in-place store. -/
def write_u32_le (data : List Nat) (offset : Nat) (value : Nat) : List Nat :=
  ((((data.set offset (value % 256)).set (offset + 1) (value / 256 % 256)).set
      (offset + 2) (value / 65536 % 256)).set (offset + 3) (value / 16777216 % 256))

/-- Modelled from the external crate crc32fast (not part of this repository):
one bit-step of the standard reflected CRC-32 (polynomial 0xEDB88320). -/
def crcTableStep (c : Nat) : Nat :=
  if c % 2 = 1 then (c / 2) ^^^ 0xEDB88320 else c / 2

/-- Modelled from the external crate crc32fast: table entry for byte `n`
(eight bit-steps). -/
def crc32_table (n : Nat) : Nat :=
  crcTableStep (crcTableStep (crcTableStep (crcTableStep
    (crcTableStep (crcTableStep (crcTableStep (crcTableStep n)))))))

/-- Modelled from the external crate crc32fast: one byte-step of CRC-32. -/
def crcStep (c b : Nat) : Nat :=
  (c / 256) ^^^ crc32_table ((c ^^^ b) % 256)

/-- `calculate_crc32` from src/utils/mod.rs, with the crc32fast hasher
modelled as the standard CRC-32 (init and final xor 0xFFFFFFFF). -/
def calculate_crc32 (l : List Nat) : Nat :=
  (l.foldl crcStep 4294967295) ^^^ 4294967295

/-- `is_png_signature` from src/utils/mod.rs. -/
def is_png_signature (data : List Nat) : Bool :=
  8 ≤ data.length && data.take 8 = [0x89, 0x50, 0x4E, 0x47, 0x0D, 0x0A, 0x1A, 0x0A]

/-- `windows(n).position(...)` against a fixed pattern: first index `i` with
`data[i..i+pat.length] == pat`. -/
def find_window (data pat : List Nat) : Option Nat :=
  (List.range (data.length + 1 - pat.length)).find?
    (fun i => (data.drop i).take pat.length = pat)

/-! ## Error type (src/lib.rs `PolyglotError`) -/

/-- `PolyglotError` from src/lib.rs (the variants the modelled code can
produce), plus `sliceOutOfBounds` marking a reachable Rust panic. -/
inductive PolyglotError where
  | pngParse (msg : String)
  | zipParse (msg : String)
  | crcMismatch (chunk_type : List Nat)
  | noIdatChunk
  | validationFailed (msg : String)
  | sliceOutOfBounds
deriving DecidableEq, Repr

/-- Decidable equality for `Except`, so that concrete runs of the embedded
code can be checked by `decide`. -/
instance {e a : Type} [DecidableEq e] [DecidableEq a] : DecidableEq (Except e a) :=
  fun x y =>
    match x, y with
    | .ok v, .ok w =>
      if h : v = w then isTrue (by rw [h])
      else isFalse (by intro hc; cases hc; exact h rfl)
    | .error v, .error w =>
      if h : v = w then isTrue (by rw [h])
      else isFalse (by intro hc; cases hc; exact h rfl)
    | .ok _, .error _ => isFalse (by intro hc; cases hc)
    | .error _, .ok _ => isFalse (by intro hc; cases hc)

/-! ## PNG chunk parsing (src/png/parser.rs) -/

/-- `Chunk` from src/png/parser.rs. -/
structure Chunk where
  length : Nat
  chunk_type : List Nat
  data : List Nat
  crc : Nat
  data_offset : Nat
deriving DecidableEq, Repr

/-- `ParsedPng` from src/png/parser.rs. -/
structure ParsedPng where
  chunks : List Chunk
deriving DecidableEq, Repr

/-- The four bytes of the tag "IEND". -/
def iendTag : List Nat := [73, 69, 78, 68]

/-- The four bytes of the tag "IDAT". -/
def idatTag : List Nat := [73, 68, 65, 84]

/-- One iteration of the `while` loop body of `parse_png_chunks`
(src/png/parser.rs lines 32-76): read length, type, data and CRC of the
chunk at `offset` and verify the CRC.  The two `sliceOutOfBounds` guards
are the implicit panics of `read_u32_be`'s slice indexing: the one for the
length read cannot fire under the loop guard `offset + 12 ≤ data.length`,
but the CRC read at `data_end` is NOT guarded in the Rust code and panics
when fewer than 4 bytes remain after the payload.  `data_offset` is
computed as in the source: the cursor after the CRC minus `length + 8`,
which is `offset + 4`. -/
def parse_chunk_at (data : List Nat) (offset : Nat) : Except PolyglotError Chunk :=
  if offset + 4 > data.length then .error .sliceOutOfBounds
  else if offset + 8 > data.length then
    .error (.pngParse "Insufficient data for chunk type")
  else if offset + 8 + read_u32_be_v data offset > data.length then
    .error (.pngParse "Chunk data extends beyond file")
  else if offset + 8 + read_u32_be_v data offset + 4 > data.length then
    .error .sliceOutOfBounds
  else if read_u32_be_v data (offset + 8 + read_u32_be_v data offset) =
      calculate_crc32 ([byteAt data (offset + 4), byteAt data (offset + 5),
        byteAt data (offset + 6), byteAt data (offset + 7)] ++
        (data.drop (offset + 8)).take (read_u32_be_v data offset)) then
    .ok ⟨read_u32_be_v data offset,
         [byteAt data (offset + 4), byteAt data (offset + 5),
          byteAt data (offset + 6), byteAt data (offset + 7)],
         (data.drop (offset + 8)).take (read_u32_be_v data offset),
         read_u32_be_v data (offset + 8 + read_u32_be_v data offset),
         offset + 8 + read_u32_be_v data offset + 4 - read_u32_be_v data offset - 8⟩
  else
    .error (.crcMismatch [byteAt data (offset + 4), byteAt data (offset + 5),
      byteAt data (offset + 6), byteAt data (offset + 7)])

/-- The `while offset + 12 <= data.len()` loop of `parse_png_chunks`,
as structural recursion on fuel.  Each iteration advances the cursor by
`12 + length ≥ 12`, so fuel `data.length` never runs out before the guard
fails; the fuel-exhausted branch returns like a failed guard. -/
def parse_png_chunks_loop (fuel : Nat) (data : List Nat) (offset : Nat) :
    Except PolyglotError (List Chunk) :=
  match fuel with
  | 0 => .ok []
  | fuel + 1 =>
    if offset + 12 ≤ data.length then
      match parse_chunk_at data offset with
      | .error e => .error e
      | .ok c =>
        if c.chunk_type = iendTag then .ok [c]
        else
          match parse_png_chunks_loop fuel data (offset + 12 + c.length) with
          | .error e => .error e
          | .ok rest => .ok (c :: rest)
    else .ok []

/-- `parse_png_chunks` from src/png/parser.rs. -/
def parse_png_chunks (data : List Nat) : Except PolyglotError ParsedPng :=
  if is_png_signature data then
    match parse_png_chunks_loop data.length data 8 with
    | .error e => .error e
    | .ok chunks =>
      if chunks = [] then .error (.pngParse "No chunks found")
      else .ok ⟨chunks⟩
  else .error (.pngParse "Invalid PNG signature")

/-- `find_first_idat` from src/png/parser.rs. -/
def find_first_idat (png : ParsedPng) : Except PolyglotError Chunk :=
  match png.chunks.find? (fun c => c.chunk_type = idatTag) with
  | some c => .ok c
  | none => .error .noIdatChunk

/-! ## PNG file operations (src/png/mod.rs) -/

/-- `PngFile` from src/png/mod.rs. -/
structure PngFile where
  raw_data : List Nat
  parsed : ParsedPng
deriving DecidableEq, Repr

/-- `PngFile::from_data` from src/png/mod.rs. -/
def PngFile.from_data (data : List Nat) : Except PolyglotError PngFile :=
  match parse_png_chunks data with
  | .error e => .error e
  | .ok parsed => .ok ⟨data, parsed⟩

/-- The chunk-rebuilding loop of `PngFile::append_to_idat`
(src/png/mod.rs lines 88-120): serialize every chunk, replacing the first
IDAT chunk's payload with `data ++ additional_data` and recomputing its
length and CRC; every other chunk is written back from its parsed fields. -/
def rebuild_chunks (chunks : List Chunk) (additional_data : List Nat)
    (found_idat : Bool) : List Nat :=
  match chunks with
  | [] => []
  | c :: rest =>
    if c.chunk_type = idatTag ∧ found_idat = false then
      let new_idat_data := c.data ++ additional_data
      u32be new_idat_data.length ++ idatTag ++ new_idat_data ++
        u32be (calculate_crc32 (idatTag ++ new_idat_data)) ++
        rebuild_chunks rest additional_data true
    else
      u32be c.length ++ c.chunk_type ++ c.data ++ u32be c.crc ++
        rebuild_chunks rest additional_data found_idat

/-- `PngFile::append_to_idat` from src/png/mod.rs: rebuild the byte
sequence with the enlarged first IDAT chunk and re-parse it.  (The Rust
method mutates `self`; the model returns the new `PngFile`.) -/
def PngFile.append_to_idat (png : PngFile) (additional_data : List Nat) :
    Except PolyglotError PngFile :=
  match find_first_idat png.parsed with
  | .error e => .error e
  | .ok _ =>
    let new_data := png.raw_data.take 8 ++
      rebuild_chunks png.parsed.chunks additional_data false
    match parse_png_chunks new_data with
    | .error e => .error e
    | .ok parsed => .ok ⟨new_data, parsed⟩

/-- The bytes of the new tEXt chunk built by `PngFile::add_zip_text_chunk`
(src/png/mod.rs lines 45-58): keyword "ZIP Archive", NUL, then the archive
bytes, with freshly computed length and CRC. -/
def zip_text_chunk_bytes (zip_data : List Nat) : List Nat :=
  let chunk_data := [90, 73, 80, 32, 65, 114, 99, 104, 105, 118, 101] ++
    [0] ++ zip_data
  u32be chunk_data.length ++ [116, 69, 88, 116] ++ chunk_data ++
    u32be (calculate_crc32 ([116, 69, 88, 116] ++ chunk_data))

/-- `PngFile::add_zip_text_chunk` from src/png/mod.rs: find the FIRST
occurrence of the four bytes "IEND" anywhere in the raw data (`windows(4)
.position(..).unwrap() - 4`), splice the new tEXt chunk at that position
minus 4, and re-parse.  A missing occurrence panics (`unwrap`), and an
occurrence before index 4 underflows the usize subtraction; both are
modelled as `sliceOutOfBounds`. -/
def PngFile.add_zip_text_chunk (png : PngFile) (zip_data : List Nat) :
    Except PolyglotError PngFile :=
  match find_window png.raw_data iendTag with
  | none => .error .sliceOutOfBounds
  | some i =>
    if i < 4 then .error .sliceOutOfBounds
    else
      let iend_pos := i - 4
      let new_data := png.raw_data.take iend_pos ++ zip_text_chunk_bytes zip_data ++
        png.raw_data.drop iend_pos
      match parse_png_chunks new_data with
      | .error e => .error e
      | .ok parsed => .ok ⟨new_data, parsed⟩

/-! ## ZIP central directory offsets (src/zip/offsets.rs) -/

namespace offsets

/-- `EocdRecord` from src/zip/offsets.rs. -/
structure EocdRecord where
  signature : Nat
  disk_num : Nat
  cd_disk_num : Nat
  num_entries_disk : Nat
  num_entries_total : Nat
  cd_size : Nat
  cd_offset : Nat
  comment_length : Nat
deriving DecidableEq, Repr

/-- The backward-scanning `while offset > 0` loop of `find_eocd`
(src/zip/offsets.rs lines 52-72): check the EOCD signature at `offset`,
accept the record when its comment length is consistent with the remaining
byte count, otherwise decrement.  Offset 0 is never checked, matching the
Rust loop condition.  Every read is within `offset + 22 ≤ data.length`,
which the caller establishes. -/
def find_eocd_loop (data : List Nat) : Nat → Except PolyglotError EocdRecord
  | 0 => .error (.zipParse "EOCD record not found")
  | offset + 1 =>
    if read_u32_le_v data (offset + 1) = 0x06054B50 then
      let record : EocdRecord :=
        ⟨read_u32_le_v data (offset + 1),
         read_u16_le_v data (offset + 1 + 4),
         read_u16_le_v data (offset + 1 + 6),
         read_u16_le_v data (offset + 1 + 8),
         read_u16_le_v data (offset + 1 + 10),
         read_u32_le_v data (offset + 1 + 12),
         read_u32_le_v data (offset + 1 + 16),
         read_u16_le_v data (offset + 1 + 20)⟩
      if record.comment_length ≤ data.length - (offset + 1) - 22 then .ok record
      else find_eocd_loop data offset
    else find_eocd_loop data offset

/-- `find_eocd` from src/zip/offsets.rs. -/
def find_eocd (data : List Nat) : Except PolyglotError EocdRecord :=
  if data.length < 22 then .error (.zipParse "ZIP data too short for EOCD")
  else find_eocd_loop data (data.length - 22)

/-- `uses_zip64` from src/zip/offsets.rs (the `data` argument is unused in
the source as well). -/
def uses_zip64 (_data : List Nat) (eocd : EocdRecord) : Bool :=
  eocd.num_entries_disk = 0xFFFF || eocd.num_entries_total = 0xFFFF ||
    eocd.cd_size = 0xFFFFFFFF || eocd.cd_offset = 0xFFFFFFFF

/-- The body of one entry visit in `update_central_directory_offsets`
(src/zip/offsets.rs lines 113-123): when the 4-byte offset field at
`offset + 42` is in bounds and its value is `>= ocd`, add `adj` to it
(u32 addition wraps modulo 2^32 in release builds) and store it back;
otherwise leave the buffer unchanged. -/
def patch_entry (data : List Nat) (offset ocd adj : Nat) : List Nat :=
  if offset + 42 + 4 ≤ data.length then
    if read_u32_le_v data (offset + 42) ≥ ocd then
      write_u32_le data (offset + 42)
        ((read_u32_le_v data (offset + 42) + adj) % 4294967296)
    else data
  else data

/-- The `while offset + 46 <= data.len()` loop of
`update_central_directory_offsets` (src/zip/offsets.rs lines 109-135):
at each central-directory entry signature, patch the stored local-header
offset via `patch_entry`, then step over the entry's three variable-length
fields, whose lengths are read from the (possibly just written) buffer as
in the Rust code.  Fuel is structural: each iteration advances the cursor
by at least 46 bytes, so `data.length` fuel never runs out before the
guard fails. -/
def update_cd_loop (fuel : Nat) (data : List Nat) (offset : Nat)
    (ocd adj : Nat) : List Nat :=
  match fuel with
  | 0 => data
  | fuel + 1 =>
    if offset + 46 ≤ data.length then
      if read_u32_le_v data offset = 0x02014B50 then
        update_cd_loop fuel (patch_entry data offset ocd adj)
          (offset + 46 + read_u16_le_v (patch_entry data offset ocd adj) (offset + 28)
            + read_u16_le_v (patch_entry data offset ocd adj) (offset + 30)
            + read_u16_le_v (patch_entry data offset ocd adj) (offset + 32))
          ocd adj
      else data
    else data

/-- Observer of `update_cd_loop`'s traversal (a proof artifact, not a
source function): the list of entry positions the loop visits, mirroring
the loop's control flow — same guard, same signature check, same stride
over the (possibly just patched) buffer.  Lets theorems quantify over
"every directory entry the patch walks". -/
def cd_entry_offsets (fuel : Nat) (data : List Nat) (offset : Nat)
    (ocd adj : Nat) : List Nat :=
  match fuel with
  | 0 => []
  | fuel + 1 =>
    if offset + 46 ≤ data.length then
      if read_u32_le_v data offset = 0x02014B50 then
        offset :: cd_entry_offsets fuel (patch_entry data offset ocd adj)
          (offset + 46 + read_u16_le_v (patch_entry data offset ocd adj) (offset + 28)
            + read_u16_le_v (patch_entry data offset ocd adj) (offset + 30)
            + read_u16_le_v (patch_entry data offset ocd adj) (offset + 32))
          ocd adj
      else []
    else []

/-- `update_central_directory_offsets` from src/zip/offsets.rs: reject a
shift that does not fit the u32 field, then walk the directory entries.
The Rust function mutates `data`; the model returns the new buffer. -/
def update_central_directory_offsets (data : List Nat)
    (original_cd_offset offset_adjustment : Nat) :
    Except PolyglotError (List Nat) :=
  if offset_adjustment = 0 then .ok data
  else if offset_adjustment ≤ 4294967295 then
    .ok (update_cd_loop data.length data original_cd_offset
          original_cd_offset offset_adjustment)
  else .error (.zipParse "Offset adjustment too large for ZIP format")

/-- `update_eocd_cd_offset` from src/zip/offsets.rs. -/
def update_eocd_cd_offset (data : List Nat) (eocd_offset new_cd_offset : Nat) :
    Except PolyglotError (List Nat) :=
  if eocd_offset + 16 + 4 > data.length then .error (.zipParse "Invalid EOCD offset")
  else .ok (write_u32_le data (eocd_offset + 16) new_cd_offset)

/-- `validate_zip_signature` from src/zip/offsets.rs. -/
def validate_zip_signature (data : List Nat) : Bool :=
  if data.length < 4 then false else read_u32_le_v data 0 = 0x04034B50

end offsets

/-! ## ZIP archive (src/zip/mod.rs) -/

/-- `ZipArchive` from src/zip/mod.rs. -/
structure ZipArchive where
  data : List Nat
  eocd_offset : Nat
  eocd : offsets.EocdRecord
deriving DecidableEq, Repr

/-- The `while eocd_offset > 0` signature search of `ZipArchive::from_data`
(src/zip/mod.rs lines 54-60): highest offset `≥ 1` carrying the EOCD
signature, or 0 when the loop runs out.  Reads are in bounds because the
search starts at `data.length - 22` (the caller has `data.length ≥ 22`
since `find_eocd` succeeded). -/
def find_eocd_offset_loop (data : List Nat) : Nat → Nat
  | 0 => 0
  | offset + 1 =>
    if read_u32_le_v data (offset + 1) = 0x06054B50 then offset + 1
    else find_eocd_offset_loop data offset

/-- `ZipArchive::from_data` from src/zip/mod.rs. -/
def ZipArchive.from_data (data : List Nat) : Except PolyglotError ZipArchive :=
  if offsets.validate_zip_signature data = false then
    .error (.zipParse "Invalid ZIP signature")
  else
    match offsets.find_eocd data with
    | .error e => .error e
    | .ok eocd =>
      let eocd_offset := find_eocd_offset_loop data (data.length - 22)
      .ok ⟨data, eocd_offset, eocd⟩

/-- `ZipArchive::update_central_directory_offsets` from src/zip/mod.rs:
reject ZIP64 archives, patch the directory entries, then store the new
directory offset (u32 wrapping addition of the truncated shift) in the
EOCD record bytes and in the cached record. -/
def ZipArchive.update_central_directory_offsets (z : ZipArchive)
    (offset_adjustment : Nat) : Except PolyglotError ZipArchive :=
  if offsets.uses_zip64 z.data z.eocd then
    .error (.zipParse "ZIP64 format not supported")
  else
    match offsets.update_central_directory_offsets z.data z.eocd.cd_offset
        offset_adjustment with
    | .error e => .error e
    | .ok data1 =>
      let new_cd_offset := (z.eocd.cd_offset + offset_adjustment % 4294967296) % 4294967296
      match offsets.update_eocd_cd_offset data1 z.eocd_offset new_cd_offset with
      | .error e => .error e
      | .ok data2 =>
        .ok ⟨data2, z.eocd_offset,
             ⟨z.eocd.signature, z.eocd.disk_num, z.eocd.cd_disk_num,
              z.eocd.num_entries_disk, z.eocd.num_entries_total,
              z.eocd.cd_size, new_cd_offset, z.eocd.comment_length⟩⟩

/-! ## Extraction and validation (src/extract/mod.rs) -/

/-- `find_zip_signature` from src/extract/mod.rs. -/
def find_zip_signature (data : List Nat) : Option Nat :=
  find_window data [0x50, 0x4B, 0x03, 0x04]

/-- `find_riff_signature` from src/extract/mod.rs. -/
def find_riff_signature (data : List Nat) : Option Nat :=
  find_window data [82, 73, 70, 70]

/-- `extract_zip_from_png_file` from src/extract/mod.rs: locate the first
ZIP local-header signature after the PNG signature; whether or not an EOCD
record is found in the remainder, the written slice is
`data[zip_start..zip_start + (len - zip_start - 22) + 22]`, i.e. everything
from `zip_start` to the end of the file.  The model returns the bytes the
Rust function writes to `output_path`. -/
def extract_zip_from_png_file (data : List Nat) : Except PolyglotError (List Nat) :=
  match find_zip_signature (data.drop 8) with
  | none => .error (.validationFailed "No ZIP signature found in PNG polyglot")
  | some pos =>
    let zip_start := 8 + pos
    let zip_slice := data.drop zip_start
    match offsets.find_eocd zip_slice with
    | .ok _ =>
      let eocd_pos_in_zip := zip_slice.length - 22
      let zip_end := zip_start + eocd_pos_in_zip + 22
      .ok ((data.take zip_end).drop zip_start)
    | .error _ => .ok (data.drop zip_start)

/-- `extract_png_from_zip_file` from src/extract/mod.rs. -/
def extract_png_from_zip_file (data : List Nat) : Except PolyglotError (List Nat) :=
  match find_window data [0x89, 0x50, 0x4E, 0x47, 0x0D, 0x0A, 0x1A, 0x0A] with
  | none => .error (.validationFailed "No PNG data found in ZIP polyglot")
  | some pos => .ok (data.drop pos)

/-- `extract_zip_from_png` from src/extract/mod.rs (file I/O abstracted:
takes the polyglot bytes, returns the bytes written). -/
def extract_zip_from_png (data : List Nat) : Except PolyglotError (List Nat) :=
  if is_png_signature data then extract_zip_from_png_file data
  else extract_png_from_zip_file data

/-- `extract_wav_from_png` from src/extract/mod.rs.  In the non-PNG branch
the Rust code evaluates `&data[0..4] == b"RIFF"`, which panics when the
input is shorter than 4 bytes (`sliceOutOfBounds`). -/
def extract_wav_from_png (data : List Nat) : Except PolyglotError (List Nat) :=
  if is_png_signature data then
    match find_riff_signature (data.drop 8) with
    | none => .error (.validationFailed "No WAV signature found in PNG polyglot")
    | some pos =>
      let riff_start := 8 + pos
      if riff_start + 8 > data.length then
        .error (.validationFailed "Invalid WAV data in polyglot")
      else
        let riff_size := read_u32_le_v data (riff_start + 4)
        let total_wav_size := riff_size + 8
        if riff_start + total_wav_size > data.length then
          .error (.validationFailed "WAV data extends beyond polyglot file")
        else .ok ((data.drop riff_start).take total_wav_size)
  else if data.length < 4 then .error .sliceOutOfBounds
  else if data.take 4 = [82, 73, 70, 70] then .ok data
  else .error (.validationFailed "File is neither PNG nor WAV format")

/-- `validate_as_png` from src/extract/mod.rs. -/
def validate_as_png (data : List Nat) : Except PolyglotError Unit :=
  if is_png_signature data = false then
    .error (.validationFailed "Invalid PNG signature")
  else
    match parse_png_chunks data with
    | .error e => .error e
    | .ok _ => .ok ()

/-- `validate_zip_within_png` from src/extract/mod.rs: re-validate the
outer PNG first, then look for a ZIP signature after the PNG signature and
parse the remainder as a ZIP archive. -/
def validate_zip_within_png (data : List Nat) : Except PolyglotError Unit :=
  match validate_as_png data with
  | .error e => .error e
  | .ok _ =>
    match find_zip_signature (data.drop 8) with
    | none => .error (.validationFailed "No ZIP signature found")
    | some pos =>
      match ZipArchive.from_data (data.drop (8 + pos)) with
      | .error e => .error e
      | .ok _ => .ok ()

/-- `validate_as_zip` from src/extract/mod.rs. -/
def validate_as_zip (data : List Nat) : Except PolyglotError Unit :=
  if data.length < 4 ∨ data.take 4 ≠ [0x50, 0x4B, 0x03, 0x04] then
    .error (.validationFailed "Invalid ZIP signature")
  else
    match ZipArchive.from_data data with
    | .error e => .error e
    | .ok _ => .ok ()

/-- `validate_png_within_zip` from src/extract/mod.rs: re-validate the
outer ZIP first (`ZipArchive::from_data(data)?`), then look for a PNG
signature anywhere and parse from there. -/
def validate_png_within_zip (data : List Nat) : Except PolyglotError Unit :=
  match ZipArchive.from_data data with
  | .error e => .error e
  | .ok _ =>
    match find_window data [0x89, 0x50, 0x4E, 0x47, 0x0D, 0x0A, 0x1A, 0x0A] with
    | some pos =>
      match parse_png_chunks (data.drop pos) with
      | .error e => .error e
      | .ok _ => .ok ()
    | none => .error (.validationFailed "No valid PNG found within ZIP structure")

/-- `ValidationResult` from src/cli/mod.rs.  The Rust variants carry
`err.to_string()`; the model carries the error values themselves. -/
inductive ValidationResult where
  | valid
  | invalidPng (e : PolyglotError)
  | invalidZip (e : PolyglotError)
  | invalidBoth (e1 e2 : PolyglotError)
deriving DecidableEq, Repr

/-- `validate_polyglot` from src/extract/mod.rs (file I/O abstracted). -/
def validate_polyglot (data : List Nat) : ValidationResult :=
  if is_png_signature data then
    match validate_as_png data, validate_zip_within_png data with
    | .ok _, .ok _ => .valid
    | .error e, .ok _ => .invalidPng e
    | .ok _, .error e => .invalidZip e
    | .error e1, .error e2 => .invalidBoth e1 e2
  else
    match validate_as_zip data, validate_png_within_zip data with
    | .ok _, .ok _ => .valid
    | .error e, .ok _ => .invalidZip e
    | .ok _, .error e => .invalidPng e
    | .error e1, .error e2 => .invalidBoth e1 e2

/-! ## Polyglot creation (src/polyglot/mod.rs) -/

/-- `PolyglotCreator` from src/polyglot/mod.rs. -/
structure PolyglotCreator where
  png : PngFile
  zip : ZipArchive
deriving DecidableEq, Repr

/-- `PolyglotCreator::from_data` from src/polyglot/mod.rs. -/
def PolyglotCreator.from_data (png_data zip_data : List Nat) :
    Except PolyglotError PolyglotCreator :=
  match PngFile.from_data png_data with
  | .error e => .error e
  | .ok png =>
    match ZipArchive.from_data zip_data with
    | .error e => .error e
    | .ok zip => .ok ⟨png, zip⟩

/-- `PolyglotCreator::create_png_dominant_polyglot_text` from
src/polyglot/mod.rs: the metadata-chunk (text) strategy.  The Rust method
writes `png.raw_data` to `output_path`; the model returns those bytes. -/
def PolyglotCreator.create_png_dominant_polyglot_text (c : PolyglotCreator) :
    Except PolyglotError (List Nat) :=
  match c.png.add_zip_text_chunk c.zip.data with
  | .error e => .error e
  | .ok png1 => .ok png1.raw_data

/-! ## Concrete fixtures (the repository's own test data)

`test_png` mirrors `create_test_png` (src/png/mod.rs tests): signature,
IHDR, one IDAT, IEND, each with a correct CRC.  `test_zip` mirrors
`create_test_zip` (src/zip/mod.rs tests): one local file header named
"test" with empty data, one central directory entry, one EOCD record.
`test_polyglot` mirrors `create_test_polyglot` (src/extract/mod.rs tests):
the same PNG but with the ZIP bytes appended inside the IDAT payload. -/

/-- Serialization of one PNG chunk with a freshly computed CRC. -/
def chunk_bytes (tag payload : List Nat) : List Nat :=
  u32be payload.length ++ tag ++ payload ++ u32be (calculate_crc32 (tag ++ payload))

/-- The 8-byte PNG signature. -/
def png_sig : List Nat := [0x89, 0x50, 0x4E, 0x47, 0x0D, 0x0A, 0x1A, 0x0A]

/-- IHDR payload of the repository's test PNG (1x1 RGB, bit depth 8). -/
def test_ihdr_data : List Nat := [0, 0, 0, 1, 0, 0, 0, 1, 8, 2, 0, 0, 0]

/-- IDAT payload of the repository's test PNG. -/
def test_idat_data : List Nat :=
  [0x78, 0x9C, 0xED, 0xC1, 0x01, 0x01, 0x00, 0x00, 0x00, 0x80, 0x90, 0xFE, 0x37, 0x10]

/-- The repository's minimal test PNG. -/
def test_png : List Nat :=
  png_sig ++ chunk_bytes [73, 72, 68, 82] test_ihdr_data ++
    chunk_bytes idatTag test_idat_data ++ chunk_bytes iendTag []

/-- The repository's minimal test ZIP: local file header (30 bytes + name
"test"), central directory entry (46 bytes + name "test", local header
offset 0), EOCD (entries 1/1, directory size 0x16... the source writes 0x16
but the entry is 50 bytes; offset 0x1A = 26 was likewise written as 34 - 8;
the bytes below are exactly the source's). -/
def test_zip : List Nat :=
  [0x50, 0x4B, 0x03, 0x04] ++ [0x0A, 0x00] ++ [0x00, 0x00] ++ [0x00, 0x00] ++
  [0x00, 0x00, 0x00, 0x00] ++ [0x00, 0x00, 0x00, 0x00] ++ [0x00, 0x00, 0x00, 0x00] ++
  [0x00, 0x00, 0x00, 0x00] ++ [0x04, 0x00] ++ [0x00, 0x00] ++ [116, 101, 115, 116] ++
  [0x50, 0x4B, 0x01, 0x02] ++ [0x0A, 0x00] ++ [0x0A, 0x00] ++ [0x00, 0x00] ++
  [0x00, 0x00] ++ [0x00, 0x00, 0x00, 0x00] ++ [0x00, 0x00, 0x00, 0x00] ++
  [0x00, 0x00, 0x00, 0x00] ++ [0x00, 0x00, 0x00, 0x00] ++ [0x04, 0x00] ++
  [0x00, 0x00] ++ [0x00, 0x00] ++ [0x00, 0x00] ++ [0x00, 0x00] ++
  [0x00, 0x00, 0x00, 0x00] ++ [0x00, 0x00, 0x00, 0x00] ++ [116, 101, 115, 116] ++
  [0x50, 0x4B, 0x05, 0x06] ++ [0x00, 0x00] ++ [0x00, 0x00] ++ [0x01, 0x00] ++
  [0x01, 0x00] ++ [0x16, 0x00, 0x00, 0x00] ++ [0x1A, 0x00, 0x00, 0x00] ++ [0x00, 0x00]

/-- The repository's test polyglot: the test PNG with the test ZIP appended
inside the IDAT payload (create_test_polyglot in src/extract/mod.rs). -/
def test_polyglot : List Nat :=
  png_sig ++ chunk_bytes [73, 72, 68, 82] test_ihdr_data ++
    chunk_bytes idatTag (test_idat_data ++ test_zip) ++ chunk_bytes iendTag []

/-- The test ZIP with the EOCD total-entry count replaced by the reserved
ZIP64 sentinel 0xFFFF (bytes 94 and 95 are the little-endian field). -/
def test_zip64 : List Nat := (test_zip.set 94 255).set 95 255

/-- The test polyglot with its first signature byte corrupted. -/
def c4_corrupted : List Nat := test_polyglot.set 0 0x88

/-! ## Derived fixtures used by witnesses and counterexamples -/

/-- The top byte of every CRC table entry; these 256 values are pairwise
distinct, which is what makes a CRC byte-step injective. -/
def crc32_table_tops : List Nat :=
  (List.range 256).map (fun i => crc32_table i / 16777216)

/-- The parsed test PNG as a `PngFile` value. -/
def test_png_file : PngFile :=
  match PngFile.from_data test_png with
  | .ok f => f
  | .error _ => ⟨[], ⟨[]⟩⟩

/-- Result of appending three bytes to the test PNG's IDAT chunk. -/
def c3_appended : PngFile :=
  match test_png_file.append_to_idat [1, 2, 3] with
  | .ok f => f
  | .error _ => ⟨[], ⟨[]⟩⟩

/-- The rebuilt IDAT chunk of `c3_appended` (its second chunk). -/
def c3_idat : Chunk := c3_appended.parsed.chunks.getD 1 ⟨0, [], [], 0, 0⟩

/-- The parsed test ZIP as a `ZipArchive` value. -/
def c2_archive : ZipArchive :=
  match ZipArchive.from_data test_zip with
  | .ok z => z
  | .error _ => ⟨[], 0, ⟨0, 0, 0, 0, 0, 0, 0, 0⟩⟩

/-- The test archive after one offset patch with shift 100. -/
def c2_patched : ZipArchive :=
  match c2_archive.update_central_directory_offsets 100 with
  | .ok z => z
  | .error _ => c2_archive

/-- The test ZIP with its EOCD directory-offset field (bytes 100..103)
corrected to 34, the true position of the central directory entry.  The
repository's fixture writes 26 there, which points inside the local file
header, so the patch loop stops at its signature check without visiting
any entry; with the corrected value the loop genuinely reaches the entry
and its `>= original_cd_offset` guard. -/
def c2_zip : List Nat := write_u32_le test_zip 100 34

/-- The parsed corrected-offset test ZIP as a `ZipArchive` value. -/
def c2_zip_archive : ZipArchive :=
  match ZipArchive.from_data c2_zip with
  | .ok z => z
  | .error _ => ⟨[], 0, ⟨0, 0, 0, 0, 0, 0, 0, 0⟩⟩

/-- The corrected-offset test archive after one offset patch with
shift 100. -/
def c2_zip_patched : ZipArchive :=
  match c2_zip_archive.update_central_directory_offsets 100 with
  | .ok z => z
  | .error _ => c2_zip_archive

/-- The test archive after two offset patches with shift 100. -/
def c5_twice_patched : ZipArchive :=
  match c2_patched.update_central_directory_offsets 100 with
  | .ok z => z
  | .error _ => c2_patched

/-- The test archive after a patch whose resulting offset wraps. -/
def c6_wrapped : ZipArchive :=
  match c2_archive.update_central_directory_offsets 4294967295 with
  | .ok z => z
  | .error _ => c2_archive

/-- The ZIP64-sentinel test archive as a `ZipArchive` value (the parse of
`test_zip64`, written out literally). -/
def c7_archive : ZipArchive :=
  ⟨test_zip64, 84, ⟨0x06054B50, 0, 0, 1, 65535, 22, 26, 0⟩⟩

/-- The bytes of the test PNG up to (excluding) its IEND chunk. -/
def c9_pre : List Nat :=
  png_sig ++ chunk_bytes [73, 72, 68, 82] test_ihdr_data ++
    chunk_bytes idatTag test_idat_data

/-- A PNG that parses successfully but contains no IEND chunk. -/
def c9_noiend_png : List Nat := png_sig ++ chunk_bytes [97, 98, 99, 100] [1, 2, 3]

/-- The 16 bytes that trail the archive inside the text-strategy polyglot:
the tEXt chunk's CRC field followed by the entire IEND chunk. -/
def c1_trailing : List Nat :=
  u32be (calculate_crc32 ([116, 69, 88, 116] ++
    ([90, 73, 80, 32, 65, 114, 99, 104, 105, 118, 101] ++ [0] ++ test_zip))) ++
  chunk_bytes iendTag []

/-- A 20-byte input whose chunk payload fits in the buffer but whose 4-byte
CRC field does not: declared length 2, two payload bytes, two bytes left. -/
def c8_input : List Nat :=
  png_sig ++ [0, 0, 0, 2] ++ [97, 98, 99, 100] ++ [1, 2] ++ [3, 4]

/-! ## Helper lemmas: bytes, `List.set`, readers -/

theorem byteAt_set_ne {l : List Nat} {i j : Nat} (h : i ≠ j) (a : Nat) :
    byteAt (l.set i a) j = byteAt l j := by
  simp [byteAt, List.getD_eq_getElem?_getD, List.getElem?_set_ne h]

theorem length_write_u32_le (data : List Nat) (offset value : Nat) :
    (write_u32_le data offset value).length = data.length := by
  simp [write_u32_le]

theorem byteAt_write_u32_le_ne {data : List Nat} {offset p : Nat}
    (h1 : p < offset ∨ offset + 4 ≤ p) (value : Nat) :
    byteAt (write_u32_le data offset value) p = byteAt data p := by
  unfold write_u32_le
  rw [byteAt_set_ne (by omega), byteAt_set_ne (by omega),
      byteAt_set_ne (by omega), byteAt_set_ne (by omega)]

theorem read_u32_be_v_set_outside {data : List Nat} {i offset : Nat}
    (h : offset + 4 ≤ i ∨ i < offset) (a : Nat) :
    read_u32_be_v (data.set i a) offset = read_u32_be_v data offset := by
  unfold read_u32_be_v
  rw [byteAt_set_ne (by omega), byteAt_set_ne (by omega),
      byteAt_set_ne (by omega), byteAt_set_ne (by omega)]

theorem drop_set_ge {l : List Nat} {n i : Nat} (h : n ≤ i) (a : Nat) :
    (l.set i a).drop n = (l.drop n).set (i - n) a := by
  apply List.ext_getElem?
  intro j
  simp only [List.getElem?_drop, List.getElem?_set, List.length_drop]
  split_ifs <;> first | rfl | omega

theorem take_set_ge {l : List Nat} {m i : Nat} (h : m ≤ i) (a : Nat) :
    (l.set i a).take m = l.take m := by
  apply List.ext_getElem?
  intro j
  simp only [List.getElem?_take, List.getElem?_set]
  split_ifs <;> first | rfl | omega

theorem take_set_lt {l : List Nat} {m i : Nat} (h : i < m) (a : Nat) :
    (l.set i a).take m = (l.take m).set i a := by
  apply List.ext_getElem?
  intro j
  simp only [List.getElem?_take, List.getElem?_set, List.length_take]
  split_ifs <;> first | rfl | omega

theorem getD_eq_take_cons_drop {l : List Nat} {j : Nat} (h : j < l.length) :
    l = l.take j ++ l.getD j 0 :: l.drop (j + 1) := by
  have h2 : l.getD j 0 = l[j] := by
    rw [List.getD_eq_getElem?_getD, List.getElem?_eq_getElem h]; rfl
  have h3 := List.getElem_cons_drop (l := l) j h
  rw [h2, h3]
  exact (List.take_append_drop j l).symm

/-! ## Helper lemmas: CRC-32 detects any single-byte change

The byte-step `crcStep c b = (c >>> 8) ^^^ table[(c ^^^ b) & 0xFF]` is
injective in `c` (for c < 2^32) and maps distinct bytes at equal state to
distinct states, because the 256 table entries have pairwise distinct top
bytes (`crc32_table_tops_nodup`, checked by computation). -/

theorem xor_left_cancel {a b c : Nat} (h : a ^^^ b = a ^^^ c) : b = c := by
  have h1 : a ^^^ (a ^^^ b) = a ^^^ (a ^^^ c) := by rw [h]
  simpa [← Nat.xor_assoc, Nat.xor_self, Nat.zero_xor] using h1

theorem xor_right_cancel {a b t : Nat} (h : a ^^^ t = b ^^^ t) : a = b := by
  have h1 : a ^^^ t ^^^ t = b ^^^ t ^^^ t := by rw [h]
  simpa [Nat.xor_assoc, Nat.xor_self, Nat.xor_zero] using h1

theorem xor_mod_256 (a b : Nat) : (a ^^^ b) % 256 = a % 256 ^^^ b % 256 := by
  have h8 : (256 : Nat) = 2 ^ 8 := by norm_num
  rw [h8]
  apply Nat.eq_of_testBit_eq
  intro i
  rw [Nat.testBit_mod_two_pow, Nat.testBit_xor, Nat.testBit_xor,
      Nat.testBit_mod_two_pow, Nat.testBit_mod_two_pow]
  by_cases hi : i < 8 <;> simp [hi]

theorem xor_shiftRight (a b k : Nat) : (a ^^^ b) >>> k = a >>> k ^^^ b >>> k := by
  apply Nat.eq_of_testBit_eq
  intro i
  rw [Nat.testBit_shiftRight, Nat.testBit_xor, Nat.testBit_xor,
      Nat.testBit_shiftRight, Nat.testBit_shiftRight]

theorem xor_div_2pow24 (a b : Nat) :
    (a ^^^ b) / 16777216 = a / 16777216 ^^^ b / 16777216 := by
  have h24 : (16777216 : Nat) = 2 ^ 24 := by norm_num
  rw [h24, ← Nat.shiftRight_eq_div_pow, ← Nat.shiftRight_eq_div_pow,
      ← Nat.shiftRight_eq_div_pow, xor_shiftRight]

theorem crcTableStep_lt {c : Nat} (h : c < 4294967296) :
    crcTableStep c < 4294967296 := by
  have h32 : (4294967296 : Nat) = 2 ^ 32 := by norm_num
  unfold crcTableStep
  split
  · rw [h32]
    exact Nat.xor_lt_two_pow (by omega) (by norm_num)
  · omega

theorem crc32_table_lt {n : Nat} (h : n < 4294967296) :
    crc32_table n < 4294967296 := by
  unfold crc32_table
  exact crcTableStep_lt (crcTableStep_lt (crcTableStep_lt (crcTableStep_lt
    (crcTableStep_lt (crcTableStep_lt (crcTableStep_lt (crcTableStep_lt h)))))))

set_option maxHeartbeats 4000000 in
set_option maxRecDepth 10000 in
theorem crc32_table_tops_nodup : crc32_table_tops.Nodup := by decide

theorem crc32_table_tops_length : crc32_table_tops.length = 256 := by
  simp [crc32_table_tops]

theorem crc32_table_top_inj {i j : Nat} (hi : i < 256) (hj : j < 256)
    (h : crc32_table i / 16777216 = crc32_table j / 16777216) : i = j := by
  have hi' : i < crc32_table_tops.length := by rw [crc32_table_tops_length]; exact hi
  have hj' : j < crc32_table_tops.length := by rw [crc32_table_tops_length]; exact hj
  have e1 : crc32_table_tops[i] = crc32_table i / 16777216 := by
    simp [crc32_table_tops]
  have e2 : crc32_table_tops[j] = crc32_table j / 16777216 := by
    simp [crc32_table_tops]
  exact (crc32_table_tops_nodup.getElem_inj_iff).mp (by rw [e1, e2, h])

theorem crcStep_lt {c : Nat} (hc : c < 4294967296) (b : Nat) :
    crcStep c b < 4294967296 := by
  have h32 : (4294967296 : Nat) = 2 ^ 32 := by norm_num
  unfold crcStep
  rw [h32]
  exact Nat.xor_lt_two_pow (by omega)
    (by rw [← h32]; exact crc32_table_lt (by omega))

theorem crcStep_inj {c1 c2 b : Nat} (h1 : c1 < 4294967296) (h2 : c2 < 4294967296)
    (he : crcStep c1 b = crcStep c2 b) : c1 = c2 := by
  unfold crcStep at he
  rw [xor_mod_256 c1 b, xor_mod_256 c2 b] at he
  have d1 := Nat.div_add_mod c1 256
  have d2 := Nat.div_add_mod c2 256
  by_cases hl : c1 % 256 = c2 % 256
  · rw [hl] at he
    have hh : c1 / 256 = c2 / 256 := xor_right_cancel he
    omega
  · exfalso
    have hidx : c1 % 256 ^^^ b % 256 ≠ c2 % 256 ^^^ b % 256 := fun hc =>
      hl (xor_right_cancel hc)
    have htop := congrArg (fun x => x / 16777216) he
    simp only at htop
    rw [xor_div_2pow24, xor_div_2pow24] at htop
    have hc1 : c1 / 256 / 16777216 = 0 := by omega
    have hc2 : c2 / 256 / 16777216 = 0 := by omega
    rw [hc1, hc2, Nat.zero_xor, Nat.zero_xor] at htop
    have hb1 : c1 % 256 ^^^ b % 256 < 256 := by
      have : (256 : Nat) = 2 ^ 8 := by norm_num
      rw [this]
      exact Nat.xor_lt_two_pow (by omega) (by omega)
    have hb2 : c2 % 256 ^^^ b % 256 < 256 := by
      have : (256 : Nat) = 2 ^ 8 := by norm_num
      rw [this]
      exact Nat.xor_lt_two_pow (by omega) (by omega)
    exact hidx (crc32_table_top_inj hb1 hb2 htop)

theorem crcStep_flip_ne {c b1 b2 : Nat} (hb1 : b1 < 256) (hb2 : b2 < 256)
    (hne : b1 ≠ b2) : crcStep c b1 ≠ crcStep c b2 := by
  intro he
  unfold crcStep at he
  rw [xor_mod_256 c b1, xor_mod_256 c b2] at he
  have hT := xor_left_cancel he
  have hi1 : c % 256 ^^^ b1 % 256 < 256 := by
    have : (256 : Nat) = 2 ^ 8 := by norm_num
    rw [this]
    exact Nat.xor_lt_two_pow (by omega) (by omega)
  have hi2 : c % 256 ^^^ b2 % 256 < 256 := by
    have : (256 : Nat) = 2 ^ 8 := by norm_num
    rw [this]
    exact Nat.xor_lt_two_pow (by omega) (by omega)
  have hidx : c % 256 ^^^ b1 % 256 = c % 256 ^^^ b2 % 256 :=
    crc32_table_top_inj hi1 hi2 (by rw [hT])
  have hb := xor_left_cancel hidx
  rw [Nat.mod_eq_of_lt hb1, Nat.mod_eq_of_lt hb2] at hb
  exact hne hb

theorem foldl_crcStep_lt (l : List Nat) {c : Nat} (hc : c < 4294967296) :
    l.foldl crcStep c < 4294967296 := by
  induction l generalizing c with
  | nil => exact hc
  | cons b l ih => exact ih (crcStep_lt hc b)

theorem foldl_crcStep_ne (l : List Nat) {c1 c2 : Nat} (h1 : c1 < 4294967296)
    (h2 : c2 < 4294967296) (hne : c1 ≠ c2) :
    l.foldl crcStep c1 ≠ l.foldl crcStep c2 := by
  induction l generalizing c1 c2 with
  | nil => exact hne
  | cons b l ih =>
    exact ih (crcStep_lt h1 b) (crcStep_lt h2 b)
      (fun he => hne (crcStep_inj h1 h2 he))

theorem calculate_crc32_flip_ne (p s : List Nat) {b1 b2 : Nat} (hb1 : b1 < 256)
    (hb2 : b2 < 256) (hne : b1 ≠ b2) :
    calculate_crc32 (p ++ b1 :: s) ≠ calculate_crc32 (p ++ b2 :: s) := by
  unfold calculate_crc32
  intro he
  have h := xor_right_cancel he
  rw [List.foldl_append, List.foldl_append] at h
  simp only [List.foldl_cons] at h
  have hc : p.foldl crcStep 4294967295 < 4294967296 :=
    foldl_crcStep_lt p (by norm_num)
  exact foldl_crcStep_ne s (crcStep_lt hc b1) (crcStep_lt hc b2)
    (crcStep_flip_ne hb1 hb2 hne) h

/-! ## Helper lemmas: the PNG chunk parser -/

/-- Full inversion of a successful single-chunk parse. -/
theorem parse_chunk_at_spec {data : List Nat} {offset : Nat} {c : Chunk}
    (h : parse_chunk_at data offset = .ok c) :
    offset + 12 + c.length ≤ data.length ∧
    c.data_offset = offset + 4 ∧
    read_u32_be_v data offset = c.length ∧
    read_u32_be_v data (offset + 8 + c.length) = c.crc ∧
    c = ⟨c.length,
         [byteAt data (offset + 4), byteAt data (offset + 5),
          byteAt data (offset + 6), byteAt data (offset + 7)],
         (data.drop (offset + 8)).take c.length, c.crc, offset + 4⟩ ∧
    c.data.length = c.length ∧
    c.crc = calculate_crc32 (c.chunk_type ++ c.data) := by
  unfold parse_chunk_at at h
  split_ifs at h with h1 h2 h3 h4 h5
  cases h
  refine ⟨?_, ?_, rfl, rfl, ?_, ?_, h5⟩
  · show offset + 12 + read_u32_be_v data offset ≤ data.length
    omega
  · show offset + 8 + read_u32_be_v data offset + 4 - read_u32_be_v data offset - 8 =
      offset + 4
    omega
  · simp only [Chunk.mk.injEq, true_and]
    show offset + 8 + read_u32_be_v data offset + 4 - read_u32_be_v data offset - 8 =
      offset + 4
    omega
  · show ((data.drop (offset + 8)).take (read_u32_be_v data offset)).length =
      read_u32_be_v data offset
    rw [List.length_take, List.length_drop]
    omega

/-- A successful single-chunk parse is unaffected by changing a byte at or
beyond the end of the chunk. -/
theorem parse_chunk_at_stable {data : List Nat} {offset : Nat} {c : Chunk}
    {i : Nat} (h : parse_chunk_at data offset = .ok c)
    (hi : offset + 12 + c.length ≤ i) (a : Nat) :
    parse_chunk_at (data.set i a) offset = .ok c := by
  obtain ⟨hlen, hoff, hrd1, hrd2, hrec, hdlen, hcrc⟩ := parse_chunk_at_spec h
  unfold parse_chunk_at
  rw [List.length_set]
  rw [read_u32_be_v_set_outside (Or.inl (by omega)) a]
  rw [hrd1]
  rw [byteAt_set_ne (by omega) a, byteAt_set_ne (by omega) a,
      byteAt_set_ne (by omega) a, byteAt_set_ne (by omega) a]
  rw [read_u32_be_v_set_outside (Or.inl (by omega)) a]
  rw [hrd2]
  rw [drop_set_ge (by omega) a]
  rw [take_set_ge (by omega) a]
  rw [if_neg (by omega), if_neg (by omega), if_neg (by omega), if_neg (by omega)]
  rw [if_pos (by rw [hrec] at hcrc; exact hcrc)]
  rw [hrec]
  simp only [Except.ok.injEq, Chunk.mk.injEq, true_and]
  omega

/-- Flipping one payload byte of a successfully parsed chunk makes the
single-chunk parse fail with a CRC mismatch on that chunk's type. -/
theorem parse_chunk_at_flip {data : List Nat} {offset : Nat} {c : Chunk}
    {j b' : Nat} (h : parse_chunk_at data offset = .ok c)
    (hval : ∀ b ∈ data, b < 256)
    (hj : j < c.data.length) (hb' : b' < 256) (hne : b' ≠ c.data.getD j 0) :
    parse_chunk_at (data.set (offset + 8 + j) b') offset =
      .error (.crcMismatch c.chunk_type) := by
  obtain ⟨hlen, hoff, hrd1, hrd2, hrec, hdlen, hcrc⟩ := parse_chunk_at_spec h
  have hjlen : j < c.length := by omega
  have hcond : ¬(c.crc = calculate_crc32 (c.chunk_type ++ c.data.set j b')) := by
    intro habs
    have hgd : c.data.getD j 0 = c.data[j] := by
      rw [List.getD_eq_getElem?_getD, List.getElem?_eq_getElem hj]; rfl
    have horig_lt : c.data.getD j 0 < 256 := by
      have hmem : c.data.getD j 0 ∈ c.data := by
        rw [hgd]; exact List.getElem_mem hj
      have hsub2 : c.data ⊆ data := by
        rw [hrec]
        exact fun x hx => List.drop_subset _ _ (List.take_subset _ _ hx)
      exact hval _ (hsub2 hmem)
    have hset : c.chunk_type ++ c.data.set j b' =
        (c.chunk_type ++ c.data.take j) ++ b' :: c.data.drop (j + 1) := by
      rw [List.set_eq_take_cons_drop b' hj, List.append_assoc]
    have hid : c.chunk_type ++ c.data =
        (c.chunk_type ++ c.data.take j) ++ c.data.getD j 0 :: c.data.drop (j + 1) := by
      conv_lhs => rw [getD_eq_take_cons_drop hj]
      rw [List.append_assoc]
    have hflip := calculate_crc32_flip_ne (c.chunk_type ++ c.data.take j)
      (c.data.drop (j + 1)) hb' horig_lt hne
    rw [← hset, ← hid] at hflip
    rw [hcrc] at habs
    exact hflip habs.symm
  unfold parse_chunk_at
  rw [List.length_set]
  rw [read_u32_be_v_set_outside (Or.inl (by omega)) b']
  rw [hrd1]
  rw [byteAt_set_ne (by omega) b', byteAt_set_ne (by omega) b',
      byteAt_set_ne (by omega) b', byteAt_set_ne (by omega) b']
  rw [read_u32_be_v_set_outside (Or.inr (by omega)) b']
  rw [hrd2]
  rw [drop_set_ge (by omega) b']
  have hsub : offset + 8 + j - (offset + 8) = j := by omega
  rw [hsub, take_set_lt hjlen b']
  have hdata : (data.drop (offset + 8)).take c.length = c.data := by
    conv_rhs => rw [hrec]
  have htype : [byteAt data (offset + 4), byteAt data (offset + 5),
      byteAt data (offset + 6), byteAt data (offset + 7)] = c.chunk_type := by
    conv_rhs => rw [hrec]
  rw [hdata, htype]
  rw [if_neg (by omega), if_neg (by omega), if_neg (by omega), if_neg (by omega)]
  rw [if_neg hcond]

/-- Every chunk returned by the parse loop has `data_offset ≥ offset + 4`. -/
theorem parse_loop_offset_lb {fuel : Nat} {data : List Nat} {offset : Nat}
    {chunks : List Chunk}
    (h : parse_png_chunks_loop fuel data offset = .ok chunks) :
    ∀ c ∈ chunks, offset + 4 ≤ c.data_offset := by
  induction fuel generalizing offset chunks with
  | zero =>
    cases h
    intro c hc
    cases hc
  | succ fuel ih =>
    unfold parse_png_chunks_loop at h
    split at h
    · cases hca : parse_chunk_at data offset with
      | error e => simp only [hca] at h; cases h
      | ok hd =>
        simp only [hca] at h
        obtain ⟨hlen, hoff, -, -, -, -, -⟩ := parse_chunk_at_spec hca
        split at h
        · cases h
          intro c hc
          rw [List.mem_singleton] at hc
          subst hc
          omega
        · cases hrest : parse_png_chunks_loop fuel data (offset + 12 + hd.length) with
          | error e => simp only [hrest] at h; cases h
          | ok rest =>
            simp only [hrest] at h
            cases h
            intro c hc
            rcases List.mem_cons.mp hc with hc | hc
            · subst hc; omega
            · have := ih hrest c hc
              omega
    · cases h
      intro c hc
      cases hc

/-- Every chunk returned by the parse loop satisfies the checksum
invariant: the stored CRC is the CRC of type tag and payload. -/
theorem parse_loop_crc_inv {fuel : Nat} {data : List Nat} {offset : Nat}
    {chunks : List Chunk}
    (h : parse_png_chunks_loop fuel data offset = .ok chunks) :
    ∀ c ∈ chunks, c.crc = calculate_crc32 (c.chunk_type ++ c.data) := by
  induction fuel generalizing offset chunks with
  | zero =>
    cases h
    intro c hc
    cases hc
  | succ fuel ih =>
    unfold parse_png_chunks_loop at h
    split at h
    · cases hca : parse_chunk_at data offset with
      | error e => simp only [hca] at h; cases h
      | ok hd =>
        simp only [hca] at h
        obtain ⟨-, -, -, -, -, -, hcrc⟩ := parse_chunk_at_spec hca
        split at h
        · cases h
          intro c hc
          rw [List.mem_singleton] at hc
          subst hc
          exact hcrc
        · cases hrest : parse_png_chunks_loop fuel data (offset + 12 + hd.length) with
          | error e => simp only [hrest] at h; cases h
          | ok rest =>
            simp only [hrest] at h
            cases h
            intro c hc
            rcases List.mem_cons.mp hc with hc | hc
            · subst hc; exact hcrc
            · exact ih hrest c hc
    · cases h
      intro c hc
      cases hc

/-- Flipping one payload byte of any chunk returned by the parse loop makes
the loop fail with a CRC mismatch naming that chunk's type. -/
theorem parse_loop_flip {fuel : Nat} {data : List Nat} {offset : Nat}
    {chunks : List Chunk} {c : Chunk} {j b' : Nat}
    (h : parse_png_chunks_loop fuel data offset = .ok chunks)
    (hval : ∀ b ∈ data, b < 256)
    (hc : c ∈ chunks) (hj : j < c.data.length) (hb' : b' < 256)
    (hne : b' ≠ c.data.getD j 0) :
    parse_png_chunks_loop fuel (data.set (c.data_offset + 4 + j) b') offset =
      .error (.crcMismatch c.chunk_type) := by
  induction fuel generalizing offset chunks with
  | zero =>
    cases h
    cases hc
  | succ fuel ih =>
    unfold parse_png_chunks_loop at h
    split at h
    · rename_i hg
      cases hca : parse_chunk_at data offset with
      | error e => simp only [hca] at h; cases h
      | ok hd =>
        simp only [hca] at h
        obtain ⟨hlen, hoff, -, -, -, hdlen, -⟩ := parse_chunk_at_spec hca
        split at h
        · rename_i hie
          cases h
          rw [List.mem_singleton] at hc
          subst hc
          have hflip := parse_chunk_at_flip hca hval hj hb' hne
          have hpos : c.data_offset + 4 + j = offset + 8 + j := by omega
          rw [← hpos] at hflip
          unfold parse_png_chunks_loop
          rw [List.length_set, if_pos hg]
          simp only [hflip]
        · rename_i hie
          cases hrest : parse_png_chunks_loop fuel data (offset + 12 + hd.length) with
          | error e => simp only [hrest] at h; cases h
          | ok rest =>
            simp only [hrest] at h
            cases h
            rcases List.mem_cons.mp hc with hceq | hcm
            · subst hceq
              have hflip := parse_chunk_at_flip hca hval hj hb' hne
              have hpos : c.data_offset + 4 + j = offset + 8 + j := by omega
              rw [← hpos] at hflip
              unfold parse_png_chunks_loop
              rw [List.length_set, if_pos hg]
              simp only [hflip]
            · have hlb := parse_loop_offset_lb hrest c hcm
              have hstable := parse_chunk_at_stable hca
                (i := c.data_offset + 4 + j) (by omega) b'
              have hrec := ih hrest hcm
              unfold parse_png_chunks_loop
              rw [List.length_set, if_pos hg]
              simp only [hstable, if_neg hie, hrec]
    · cases h
      cases hc

/-- A successful top-level parse decomposes into the signature check and a
successful loop run. -/
theorem parse_ok_parts {data : List Nat} {parsed : ParsedPng}
    (h : parse_png_chunks data = .ok parsed) :
    is_png_signature data = true ∧
    parse_png_chunks_loop data.length data 8 = .ok parsed.chunks := by
  unfold parse_png_chunks at h
  split at h
  · rename_i hsig
    cases hl : parse_png_chunks_loop data.length data 8 with
    | error e => simp only [hl] at h; cases h
    | ok chunks =>
      simp only [hl] at h
      split at h
      · cases h
      · cases h
        exact ⟨hsig, rfl⟩
  · cases h

/-- Checksum invariant for every chunk of a successful top-level parse. -/
theorem parse_ok_crc_inv {data : List Nat} {parsed : ParsedPng}
    (h : parse_png_chunks data = .ok parsed) :
    ∀ c ∈ parsed.chunks, c.crc = calculate_crc32 (c.chunk_type ++ c.data) := by
  obtain ⟨-, hloop⟩ := parse_ok_parts h
  exact parse_loop_crc_inv hloop

/-- Flipping one payload byte of any chunk of a successfully parsed buffer
makes the top-level parse fail with a CRC mismatch on that chunk's type. -/
theorem parse_ok_flip {data : List Nat} {parsed : ParsedPng} {c : Chunk}
    {j b' : Nat}
    (h : parse_png_chunks data = .ok parsed) (hval : ∀ b ∈ data, b < 256)
    (hc : c ∈ parsed.chunks) (hj : j < c.data.length) (hb' : b' < 256)
    (hne : b' ≠ c.data.getD j 0) :
    parse_png_chunks (data.set (c.data_offset + 4 + j) b') =
      .error (.crcMismatch c.chunk_type) := by
  obtain ⟨hsig, hloop⟩ := parse_ok_parts h
  have hlb := parse_loop_offset_lb hloop c hc
  have hflip := parse_loop_flip hloop hval hc hj hb' hne
  have hsig' : is_png_signature (data.set (c.data_offset + 4 + j) b') = true := by
    unfold is_png_signature at hsig ⊢
    rw [List.length_set, take_set_ge (by omega) b']
    exact hsig
  unfold parse_png_chunks
  rw [if_pos hsig', List.length_set]
  simp only [hflip]

/-- A successful `append_to_idat` records exactly the re-parse of the bytes
it produced. -/
theorem append_to_idat_reparse {png png' : PngFile} {extra : List Nat}
    (hok : png.append_to_idat extra = .ok png') :
    parse_png_chunks png'.raw_data = .ok png'.parsed := by
  unfold PngFile.append_to_idat at hok
  cases hfi : find_first_idat png.parsed with
  | error e => simp only [hfi] at hok; cases hok
  | ok _ =>
    simp only [hfi] at hok
    cases hp : parse_png_chunks
        (png.raw_data.take 8 ++ rebuild_chunks png.parsed.chunks extra false) with
    | error e => simp only [hp] at hok; cases hok
    | ok parsed =>
      simp only [hp] at hok
      cases hok
      exact hp

/-! ## Helper lemmas: the ZIP offset patch -/

/-- `offsets.patch_entry` never changes a byte below `offset + 42`. -/
theorem byteAt_patch_entry_below {data : List Nat} {offset ocd adj p : Nat}
    (hp : p < offset + 42) :
    byteAt (offsets.patch_entry data offset ocd adj) p = byteAt data p := by
  unfold offsets.patch_entry
  split
  · split
    · exact byteAt_write_u32_le_ne (Or.inl (by omega)) _
    · rfl
  · rfl

/-- `offsets.patch_entry` does nothing when the stored offset is below `ocd`. -/
theorem patch_entry_nop {data : List Nat} {offset ocd adj : Nat}
    (hlow : ¬ read_u32_le_v data (offset + 42) ≥ ocd) :
    offsets.patch_entry data offset ocd adj = data := by
  unfold offsets.patch_entry
  rw [if_neg hlow]
  split <;> rfl

/-- The directory-patch loop starting at `offset` never changes a byte
below `offset + 42`: it writes only the 4-byte offset field at
`offset + 42` of each recognized entry, and later entries start at least
46 bytes further on. -/
theorem update_cd_loop_preserves_below {fuel : Nat} {data : List Nat}
    {offset ocd adj p : Nat} (hp : p < offset + 42) :
    byteAt (offsets.update_cd_loop fuel data offset ocd adj) p = byteAt data p := by
  induction fuel generalizing data offset with
  | zero => rfl
  | succ fuel ih =>
    unfold offsets.update_cd_loop
    split
    · split
      · rw [ih (by omega)]
        exact byteAt_patch_entry_below (by omega)
      · rfl
    · rfl

/-- `patch_entry` changes no byte outside the 4-byte field at
`offset + 42`. -/
theorem byteAt_patch_entry_outside {data : List Nat} {offset ocd adj p : Nat}
    (h : p < offset + 42 ∨ offset + 46 ≤ p) :
    byteAt (offsets.patch_entry data offset ocd adj) p = byteAt data p := by
  unfold offsets.patch_entry
  split
  · split
    · exact byteAt_write_u32_le_ne (by omega) _
    · rfl
  · rfl

/-- Every entry position the patch loop visits is at or after the loop's
start offset. -/
theorem cd_entry_offsets_lb {fuel : Nat} {data : List Nat}
    {offset ocd adj : Nat} :
    ∀ o ∈ offsets.cd_entry_offsets fuel data offset ocd adj, offset ≤ o := by
  induction fuel generalizing data offset with
  | zero =>
    intro o h
    cases h
  | succ fuel ih =>
    intro o h
    unfold offsets.cd_entry_offsets at h
    split at h
    · split at h
      · rcases List.mem_cons.mp h with heq | hmem
        · omega
        · have := ih _ hmem
          omega
      · cases h
    · cases h

/-- Every directory entry the patch loop visits whose stored local-header
offset (in the initial buffer) is below `ocd` has that offset field
unchanged in the loop's result. -/
theorem update_cd_loop_low_entries_unchanged {fuel : Nat} {data : List Nat}
    {offset ocd adj : Nat} :
    ∀ o ∈ offsets.cd_entry_offsets fuel data offset ocd adj,
      ¬ read_u32_le_v data (o + 42) ≥ ocd →
      read_u32_le_v (offsets.update_cd_loop fuel data offset ocd adj) (o + 42) =
        read_u32_le_v data (o + 42) := by
  induction fuel generalizing data offset with
  | zero =>
    intro o h
    cases h
  | succ fuel ih =>
    intro o hmem hlow
    unfold offsets.cd_entry_offsets at hmem
    unfold offsets.update_cd_loop
    by_cases hg : offset + 46 ≤ data.length
    · rw [if_pos hg] at hmem ⊢
      by_cases hsig : read_u32_le_v data offset = 0x02014B50
      · rw [if_pos hsig] at hmem ⊢
        rcases List.mem_cons.mp hmem with heq | hmem'
        · subst heq
          rw [patch_entry_nop hlow]
          unfold read_u32_le_v
          rw [update_cd_loop_preserves_below (by omega),
              update_cd_loop_preserves_below (by omega),
              update_cd_loop_preserves_below (by omega),
              update_cd_loop_preserves_below (by omega)]
        · have hlb := cd_entry_offsets_lb _ hmem'
          have hpe : read_u32_le_v (offsets.patch_entry data offset ocd adj)
              (o + 42) = read_u32_le_v data (o + 42) := by
            unfold read_u32_le_v
            rw [byteAt_patch_entry_outside (Or.inr (by omega)),
                byteAt_patch_entry_outside (Or.inr (by omega)),
                byteAt_patch_entry_outside (Or.inr (by omega)),
                byteAt_patch_entry_outside (Or.inr (by omega))]
          have ih' := ih _ hmem' (by rw [hpe]; exact hlow)
          rw [ih', hpe]
      · rw [if_neg hsig] at hmem
        cases hmem
    · rw [if_neg hg] at hmem
      cases hmem

/-- Writing a u32 at or beyond position `q + 4` does not change the u32
read at `q`. -/
theorem read_u32_le_v_write_outside {data : List Nat} {q w : Nat}
    (h : q + 4 ≤ w ∨ w + 4 ≤ q) (v : Nat) :
    read_u32_le_v (write_u32_le data w v) q = read_u32_le_v data q := by
  unfold read_u32_le_v
  rw [byteAt_write_u32_le_ne (by omega) v, byteAt_write_u32_le_ne (by omega) v,
      byteAt_write_u32_le_ne (by omega) v, byteAt_write_u32_le_ne (by omega) v]

/-- Successful offset patching always stores the wrapped u32 sum of the old
directory offset and the (truncated) shift into the cached EOCD record. -/
theorem update_cd_offset_spec {z z' : ZipArchive} {s : Nat}
    (h : z.update_central_directory_offsets s = .ok z') :
    z'.eocd.cd_offset = (z.eocd.cd_offset + s % 4294967296) % 4294967296 := by
  unfold ZipArchive.update_central_directory_offsets at h
  split at h
  · cases h
  · cases h1 : offsets.update_central_directory_offsets z.data z.eocd.cd_offset s with
    | error e => simp only [h1] at h; cases h
    | ok data1 =>
      simp only [h1] at h
      cases h2 : offsets.update_eocd_cd_offset data1 z.eocd_offset
          ((z.eocd.cd_offset + s % 4294967296) % 4294967296) with
      | error e => simp only [h2] at h; cases h
      | ok data2 =>
        simp only [h2] at h
        cases h
        rfl

set_option maxRecDepth 100000
set_option maxHeartbeats 4000000

/-! ## Claim C1 -/

/-- C1: the round-trip claim fails on the code.  Creating a polyglot from
the repository's own test PNG and test ZIP with the metadata-chunk (text)
strategy and then extracting returns the archive followed by 16 trailing
container bytes (the tEXt chunk's CRC field and the IEND chunk), not the
archive byte-for-byte: `extract_zip_from_png_file` bounds the archive by
`zip_slice.len() - 22 + 22`, i.e. the end of the outer file, instead of
the archive's own trailer position. -/
theorem c1_roundtrip_not_byte_exact :
    (PolyglotCreator.from_data test_png test_zip).bind
        (fun c => c.create_png_dominant_polyglot_text.bind extract_zip_from_png) =
      .ok (test_zip ++ c1_trailing) ∧ test_zip ++ c1_trailing ≠ test_zip :=
  ⟨by decide, by decide⟩

/-! ## Claim C2 -/

/-- C2 counterexample: on the repository's test archive with its EOCD
directory-offset field corrected to the true directory position 34 (the
fixture's own value 26 points inside the local file header, where no
entry signature exists), patching with shift 100 leaves the single
directory entry's local-header-offset field — the u32 at 76 = 34 + 42 —
at its original value 0 instead of the claimed 0 + 100, because the code
shifts an entry only when its stored offset is at least the directory
offset (src/zip/offsets.rs line 118) and 0 < 34.  The trailer's offset is
shifted, to 134. -/
theorem c2_entry_not_shifted_counterexample :
    (ZipArchive.from_data c2_zip).bind
        (fun z => (z.update_central_directory_offsets 100).map
          (fun z1 => (read_u32_le_v z1.data (34 + 42), z1.eocd.cd_offset))) =
      .ok (0, 134) ∧ (0 : Nat) ≠ 0 + 100 :=
  ⟨by decide, by decide⟩

/-- C2 amended: after a successful offset patch with shift `s`, every
directory entry the patch loop visits whose stored local-header offset is
BELOW the original directory offset (in a standard archive, every entry,
since entry payloads precede the directory) keeps that offset unchanged —
it is not increased by `s` — while the trailer's directory offset is
increased by exactly `s` (modulo 2^32).  The per-entry side condition
`o + 46 ≤ z.eocd_offset + 16` says the entry's offset field ends before
the EOCD's directory field, true of any well-formed archive. -/
theorem c2_offset_patch_amended (z z' : ZipArchive) (s : Nat)
    (hs : 0 < s) (hsmax : s ≤ 4294967295)
    (hok : z.update_central_directory_offsets s = .ok z') :
    (∀ o ∈ offsets.cd_entry_offsets z.data.length z.data z.eocd.cd_offset
        z.eocd.cd_offset s,
      read_u32_le_v z.data (o + 42) < z.eocd.cd_offset →
      o + 46 ≤ z.eocd_offset + 16 →
      read_u32_le_v z'.data (o + 42) = read_u32_le_v z.data (o + 42)) ∧
    z'.eocd.cd_offset = (z.eocd.cd_offset + s) % 4294967296 := by
  constructor
  · unfold ZipArchive.update_central_directory_offsets at hok
    split at hok
    · cases hok
    · cases h1 : offsets.update_central_directory_offsets z.data z.eocd.cd_offset s with
      | error e => simp only [h1] at hok; cases hok
      | ok data1 =>
        simp only [h1] at hok
        cases h2 : offsets.update_eocd_cd_offset data1 z.eocd_offset
            ((z.eocd.cd_offset + s % 4294967296) % 4294967296) with
        | error e => simp only [h2] at hok; cases hok
        | ok data2 =>
          simp only [h2] at hok
          cases hok
          unfold offsets.update_central_directory_offsets at h1
          rw [if_neg (by omega), if_pos hsmax] at h1
          cases h1
          unfold offsets.update_eocd_cd_offset at h2
          split at h2
          · cases h2
          · cases h2
            intro o hmem hlt hdisj
            show read_u32_le_v (write_u32_le _ (z.eocd_offset + 16) _) (o + 42) = _
            rw [read_u32_le_v_write_outside (Or.inl (by omega)) _]
            exact update_cd_loop_low_entries_unchanged o hmem (by omega)
  · have e := update_cd_offset_spec hok
    rw [e, Nat.mod_eq_of_lt (by omega : s < 4294967296)]

/-- C2 witness: the amended theorem applied to the corrected-offset test
archive with shift 100, at its one visited entry (position 34, offset
field 76 holding 0 < 34). -/
theorem c2_offset_patch_amended_witness :
    read_u32_le_v c2_zip_patched.data (34 + 42) =
      read_u32_le_v c2_zip_archive.data (34 + 42) ∧
    c2_zip_patched.eocd.cd_offset =
      (c2_zip_archive.eocd.cd_offset + 100) % 4294967296 := by
  have h := c2_offset_patch_amended c2_zip_archive c2_zip_patched 100
    (by decide) (by decide) (by decide)
  exact ⟨h.1 34 (by decide) (by decide) (by decide), h.2⟩

/-! ## Claim C3 -/

/-- C3: every chunk of the byte sequence produced by `append_to_idat`
satisfies the checksum invariant (stored CRC equals the CRC recomputed
over type tag and payload); re-parsing the produced bytes succeeds and
returns exactly the recorded chunks; and flipping any single payload byte
(to a different byte value) before re-parsing yields the checksum-mismatch
error naming that chunk's type. -/
theorem c3_checksum_invariant (png png' : PngFile) (extra : List Nat)
    (hok : png.append_to_idat extra = .ok png')
    (hval : ∀ b ∈ png'.raw_data, b < 256) :
    (∀ c ∈ png'.parsed.chunks, c.crc = calculate_crc32 (c.chunk_type ++ c.data)) ∧
    parse_png_chunks png'.raw_data = .ok png'.parsed ∧
    (∀ c ∈ png'.parsed.chunks, ∀ j, j < c.data.length → ∀ b', b' < 256 →
      b' ≠ c.data.getD j 0 →
      parse_png_chunks (png'.raw_data.set (c.data_offset + 4 + j) b') =
        .error (.crcMismatch c.chunk_type)) := by
  have hparse := append_to_idat_reparse hok
  refine ⟨parse_ok_crc_inv hparse, hparse, ?_⟩
  intro c hc j hj b' hb' hne
  exact parse_ok_flip hparse hval hc hj hb' hne

/-- C3 witness: appending `[1,2,3]` to the test PNG's IDAT chunk and then
zeroing the first payload byte of the rebuilt IDAT chunk makes the
re-parse fail with a CRC mismatch on "IDAT". -/
theorem c3_checksum_invariant_witness :
    parse_png_chunks (c3_appended.raw_data.set (c3_idat.data_offset + 4 + 0) 0) =
      .error (.crcMismatch c3_idat.chunk_type) := by
  have h := c3_checksum_invariant test_png_file c3_appended [1, 2, 3]
    (by decide) (by decide)
  exact h.2.2 c3_idat (by decide) 0 (by decide) 0 (by decide) (by decide)

/-! ## Claim C4 -/

/-- C4 counterexample: corrupting only the outer magic prefix of the
repository's own test polyglot (first byte 0x89 → 0x88) yields
`InvalidBoth`, not the claimed invalid-outer-only result, even though the
embedded ZIP is intact and locatable (second conjunct: the bytes from
offset 55 parse as a ZIP archive on their own).  The inner check
`validate_png_within_zip` re-validates the outer ZIP first and so fails
with the outer error. -/
theorem c4_outer_corrupt_invalid_both_counterexample :
    validate_polyglot c4_corrupted =
      .invalidBoth (.validationFailed "Invalid ZIP signature")
        (.zipParse "Invalid ZIP signature") ∧
    (match ZipArchive.from_data (c4_corrupted.drop 55) with
     | .ok _ => true
     | .error _ => false) = true :=
  ⟨by decide, by decide⟩

/-- C4 amended: the inner verdict IS short-circuited by the outer failure:
whenever the outer archive parse fails, `validate_png_within_zip` returns
that same outer error without attempting the inner PNG parse, so a
corrupted outer magic yields `InvalidBoth` rather than invalid-outer with
a valid inner report. -/
theorem c4_inner_short_circuit_amended (data : List Nat) (e : PolyglotError)
    (h : ZipArchive.from_data data = .error e) :
    validate_png_within_zip data = .error e := by
  unfold validate_png_within_zip
  simp only [h]

/-- C4 witness: the amended theorem applied to a 4-byte non-ZIP input. -/
theorem c4_inner_short_circuit_amended_witness :
    validate_png_within_zip [0, 1, 2, 3] = .error (.zipParse "Invalid ZIP signature") :=
  c4_inner_short_circuit_amended [0, 1, 2, 3] (.zipParse "Invalid ZIP signature")
    (by decide)

/-! ## Claim C5 -/

/-- C5 counterexample: calling the offset patch twice with the same shift
100 on the test archive is neither rejected nor a no-op: both calls return
`ok`, and the trailer's directory offset moves from 126 to 226 — silently
applied twice. -/
theorem c5_double_patch_counterexample :
    (ZipArchive.from_data test_zip).bind
        (fun z => (z.update_central_directory_offsets 100).bind
          (fun z1 => (z1.update_central_directory_offsets 100).map
            (fun z2 => (z1.eocd.cd_offset, z2.eocd.cd_offset)))) =
      .ok (126, 226) ∧ (226 : Nat) ≠ 126 :=
  ⟨by decide, by decide⟩

/-- C5 amended: nothing guards against a repeated patch; a second
successful call shifts the trailer's directory offset again, leaving it at
the original value plus twice the (wrapped) shift. -/
theorem c5_double_patch_amended (z z1 z2 : ZipArchive) (s : Nat)
    (h1 : z.update_central_directory_offsets s = .ok z1)
    (h2 : z1.update_central_directory_offsets s = .ok z2) :
    z2.eocd.cd_offset = (z.eocd.cd_offset + 2 * (s % 4294967296)) % 4294967296 := by
  have e1 := update_cd_offset_spec h1
  have e2 := update_cd_offset_spec h2
  rw [e2, e1]
  omega

/-- C5 witness: the amended theorem applied to the test archive patched
twice with shift 100. -/
theorem c5_double_patch_amended_witness :
    c5_twice_patched.eocd.cd_offset =
      (c2_archive.eocd.cd_offset + 2 * (100 % 4294967296)) % 4294967296 :=
  c5_double_patch_amended c2_archive c2_patched c5_twice_patched 100
    (by decide) (by decide)

/-! ## Claim C6 -/

/-- C6 counterexample: patching the test archive (directory offset 26)
with shift 4294967295 succeeds instead of failing, storing the wrapped
value 25 = (26 + 4294967295) mod 2^32 as the directory offset. -/
theorem c6_wrap_counterexample :
    (ZipArchive.from_data test_zip).bind
        (fun z => (z.update_central_directory_offsets 4294967295).map
          (fun z1 => z1.eocd.cd_offset)) = .ok 25 ∧
      26 + 4294967295 = 4294967296 + 25 :=
  ⟨by decide, by decide⟩

/-- C6 amended: the only overflow the operation rejects is a shift that
itself exceeds the u32 range; when the RESULTING directory offset
overflows the 32-bit field, the patch still succeeds and stores the value
wrapped modulo 2^32 instead of failing with a capacity error. -/
theorem c6_overflow_amended (z z' : ZipArchive) (s : Nat)
    (hcd : z.eocd.cd_offset < 4294967296) (hs : s < 4294967296)
    (hov : 4294967296 ≤ z.eocd.cd_offset + s)
    (hok : z.update_central_directory_offsets s = .ok z') :
    z'.eocd.cd_offset = z.eocd.cd_offset + s - 4294967296 := by
  have e := update_cd_offset_spec hok
  rw [e]
  omega

/-- C6 witness: the amended theorem applied to the test archive and the
largest representable shift. -/
theorem c6_overflow_amended_witness :
    c6_wrapped.eocd.cd_offset = c2_archive.eocd.cd_offset + 4294967295 - 4294967296 :=
  c6_overflow_amended c2_archive c6_wrapped 4294967295 (by decide) (by decide)
    (by decide) (by decide)

/-! ## Claim C7 -/

/-- C7 counterexample: an archive whose EOCD total-entry count holds the
reserved sentinel 0xFFFF parses successfully — `ZipArchive::from_data`
never consults `uses_zip64`, so no unsupported-64-bit error is raised at
parse time. -/
theorem c7_parse_accepts_zip64_counterexample :
    (ZipArchive.from_data test_zip64).map (fun z => z.eocd.num_entries_total) =
      .ok 65535 := by decide

/-- C7 amended: the ZIP64-sentinel check happens only in the offset-patch
operation, not in the parse: any archive whose EOCD record carries a
reserved sentinel value is rejected by
`update_central_directory_offsets` with the ZIP64-not-supported error. -/
theorem c7_zip64_check_amended (z : ZipArchive) (s : Nat)
    (h : offsets.uses_zip64 z.data z.eocd = true) :
    z.update_central_directory_offsets s =
      .error (.zipParse "ZIP64 format not supported") := by
  unfold ZipArchive.update_central_directory_offsets
  rw [if_pos h]

/-- C7 witness: the amended theorem applied to the sentinel-carrying test
archive. -/
theorem c7_zip64_check_amended_witness :
    c7_archive.update_central_directory_offsets 5 =
      .error (.zipParse "ZIP64 format not supported") :=
  c7_zip64_check_amended c7_archive 5 (by decide)

/-! ## Claim C8 -/

/-- C8: the container parse is NOT total.  On a 20-byte input whose chunk
payload (declared length 2) fits the buffer but whose trailing 4-byte CRC
field does not, the parser panics (out-of-bounds slice in `read_u32_be`,
modelled as `sliceOutOfBounds`) instead of returning the truncation
error. -/
theorem c8_parser_panics_on_truncated_crc :
    parse_png_chunks c8_input = .error .sliceOutOfBounds := by decide

/-! ## Claim C9 -/

/-- C9 counterexample: a container that parses successfully but has no
IEND chunk (the parser does not require one) makes `add_zip_text_chunk`
panic on its `unwrap()` (modelled as `sliceOutOfBounds`) instead of
inserting the metadata chunk. -/
theorem c9_no_iend_panic_counterexample :
    (match parse_png_chunks c9_noiend_png with
     | .ok _ => true
     | .error _ => false) = true ∧
    (PngFile.from_data c9_noiend_png).bind
        (fun png => png.add_zip_text_chunk [9, 9]) = .error .sliceOutOfBounds :=
  ⟨by decide, by decide⟩

/-- C9 amended: provided the container does contain the IEND tag and its
FIRST occurrence in the raw bytes is the terminal chunk's type field (at
`pre.length + 4` where `pre` is everything before the IEND chunk), the
operation splices the freshly checksummed tEXt chunk exactly between
`pre` and the IEND chunk bytes, and returns the re-parse of that spliced
sequence: all bytes before the new chunk are the original non-terminal
bytes unchanged, and the only bytes after it are the terminal chunk's. -/
theorem c9_insert_before_terminal_amended (png : PngFile)
    (zip_data pre crc4 : List Nat)
    (hf : find_window png.raw_data iendTag = some (pre.length + 4))
    (hdecomp : png.raw_data = pre ++ ([0, 0, 0, 0] ++ iendTag ++ crc4)) :
    png.add_zip_text_chunk zip_data =
      match parse_png_chunks (pre ++ zip_text_chunk_bytes zip_data ++
          ([0, 0, 0, 0] ++ iendTag ++ crc4)) with
      | .error e => .error e
      | .ok parsed => .ok ⟨pre ++ zip_text_chunk_bytes zip_data ++
          ([0, 0, 0, 0] ++ iendTag ++ crc4), parsed⟩ := by
  unfold PngFile.add_zip_text_chunk
  simp only [hf]
  rw [if_neg (by omega)]
  have hpos : pre.length + 4 - 4 = pre.length := by omega
  rw [hpos, hdecomp, List.take_left, List.drop_left]

/-- C9 witness: the amended theorem applied to the test PNG (whose first
IEND occurrence is its terminal chunk, at byte 63 = 59 + 4). -/
theorem c9_insert_before_terminal_amended_witness :
    test_png_file.add_zip_text_chunk [1, 2, 3] =
      match parse_png_chunks (c9_pre ++ zip_text_chunk_bytes [1, 2, 3] ++
          ([0, 0, 0, 0] ++ iendTag ++ u32be (calculate_crc32 iendTag))) with
      | .error e => .error e
      | .ok parsed => .ok ⟨c9_pre ++ zip_text_chunk_bytes [1, 2, 3] ++
          ([0, 0, 0, 0] ++ iendTag ++ u32be (calculate_crc32 iendTag)), parsed⟩ :=
  c9_insert_before_terminal_amended test_png_file [1, 2, 3] c9_pre
    (u32be (calculate_crc32 iendTag)) (by decide) (by decide)

/-! ## Claim C10 -/

/-- C10: the WAV-extraction operation is NOT panic-free.  On the empty
input (shorter than 4 bytes, not starting with the PNG magic), the Rust
code evaluates `&data[0..4] == b"RIFF"` and panics on the out-of-bounds
slice (modelled as `sliceOutOfBounds`) instead of returning a typed
error. -/
theorem c10_wav_extract_panics_on_short_input :
    extract_wav_from_png [] = .error .sliceOutOfBounds := by decide
